import Mathlib

/-!
Verification of the `us` renter core: the contract-revision arithmetic in
`renter/proto/negotiate.go` and the sector-staging pipeline
(`SectorBuilder` / `ShardUploader`).

Shallow embedding conventions:
* `types.Currency` (an unbounded non-negative big integer in Sia) is `Nat`;
  `Currency.Sub` underflow is a runtime fault in Go, so theorems that rely on
  subtraction carry the corresponding `≤` hypotheses.
* Byte strings are `List Nat`; cryptographic primitives that live outside this
  repository (`crypto.HashBytes`, `proto.SectorMerkleRoot`, signature
  verification, `StandaloneValid`) are taken as function parameters.
* Network connections are embedded as scripts: the messages the peer will send
  are inputs, and the messages written by the renter are collected in a list.
-/

namespace Us

/-- `proto.SectorSize`: 4 MiB, the fixed size of a sector. -/
def SectorSize : Nat := 1 <<< 22

/-- `proto.SegmentSize`: 64 bytes, the cipher block size. -/
def SegmentSize : Nat := 64

/-- `proto.SegmentsPerSector = SectorSize / SegmentSize = 65536`. -/
def SegmentsPerSector : Nat := SectorSize / SegmentSize

/-- `types.SiacoinOutput`: only the `Value` field matters to the revision
arithmetic; `UnlockHash` is carried along untouched. -/
structure SiacoinOutput where
  value : Nat
  unlockHash : Nat
  deriving Repr, DecidableEq

/-- `types.FileContractRevision`. Valid proof outputs are `[renter, host]`;
missed proof outputs are `[renter, host, void]`. -/
structure FileContractRevision where
  parentID : Nat
  unlockConditions : Nat
  newRevisionNumber : Nat
  newFileSize : Nat
  newFileMerkleRoot : Nat
  newWindowStart : Nat
  newWindowEnd : Nat
  newValidProofOutputs : List SiacoinOutput
  newMissedProofOutputs : List SiacoinOutput
  newUnlockHash : Nat
  deriving Repr, DecidableEq

/-- Go's `dst := make([]SiacoinOutput, n); copy(dst, src)`: the first `n`
elements of `src`, zero-padded up to length `n` when `src` is shorter. -/
def copyMake (n : Nat) (src : List SiacoinOutput) : List SiacoinOutput :=
  src.take n ++ List.replicate (n - src.length) ⟨0, 0⟩

/-- Read `l[i].Value`; Go panics when `i` is out of range, the model returns 0
(theorems always carry the length hypotheses that rule this out). -/
def valueAt (l : List SiacoinOutput) (i : Nat) : Nat :=
  (l.getD i ⟨0, 0⟩).value

/-- Write `l[i].Value = v`, keeping the output's unlock hash. -/
def setValue (l : List SiacoinOutput) (i : Nat) (v : Nat) : List SiacoinOutput :=
  l.set i ⟨v, (l.getD i ⟨0, 0⟩).unlockHash⟩

/-- `newRevision` (negotiate.go): copy `current`, move `cost` from the
renter's valid output to the host's, move `cost` from the renter's missed
output to the void's, and increment the revision number. -/
def newRevision (current : FileContractRevision) (cost : Nat) : FileContractRevision :=
  let valid0 := copyMake 2 current.newValidProofOutputs
  let missed0 := copyMake 3 current.newMissedProofOutputs
  let valid1 := setValue valid0 0 (valueAt current.newValidProofOutputs 0 - cost)
  let valid2 := setValue valid1 1 (valueAt current.newValidProofOutputs 1 + cost)
  let missed1 := setValue missed0 0 (valueAt current.newMissedProofOutputs 0 - cost)
  let missed2 := setValue missed1 2 (valueAt current.newMissedProofOutputs 2 + cost)
  { current with
    newValidProofOutputs := valid2
    newMissedProofOutputs := missed2
    newRevisionNumber := current.newRevisionNumber + 1 }

/-- `newDownloadRevision` (negotiate.go): delegates to `newRevision`. -/
def newDownloadRevision (current : FileContractRevision) (downloadCost : Nat) :
    FileContractRevision :=
  newRevision current downloadCost

/-- `newUploadRevision` (negotiate.go): on top of `newRevision`, move
`collateral` from the host's missed output to the void's, grow the file by one
sector and install the new Merkle root. -/
def newUploadRevision (current : FileContractRevision) (merkleRoot : Nat)
    (price collateral : Nat) : FileContractRevision :=
  let rev := newRevision current price
  let missed1 := setValue rev.newMissedProofOutputs 1
    (valueAt rev.newMissedProofOutputs 1 - collateral)
  let missed2 := setValue missed1 2 (valueAt missed1 2 + collateral)
  { rev with
    newMissedProofOutputs := missed2
    newFileSize := rev.newFileSize + SectorSize
    newFileMerkleRoot := merkleRoot }

/-- Sum of the `Value` fields of a list of outputs. -/
def sumValues (l : List SiacoinOutput) : Nat :=
  (l.map SiacoinOutput.value).sum

/-- The padding `SectorBuilder.Append` computes for `n` bytes of data:
`0` when `n` is already a multiple of `SegmentSize`, otherwise the distance to
the next multiple. -/
def paddingFor (n : Nat) : Nat :=
  if n % SegmentSize = 0 then 0 else SegmentSize - n % SegmentSize

/-- `n` rounded up to the next `SegmentSize` boundary. -/
def roundUpSegment (n : Nat) : Nat := n + paddingFor n

/-- The starting segment index `uint64(chunkIndex * proto.SegmentsPerSector)`:
`chunkIndex` is an `int64`, the product wraps in two's complement, and the
`uint64` conversion reinterprets the bits, so the composite is reduction
modulo `2^64`. -/
def startIndex (chunkIndex : Int) : Nat :=
  ((chunkIndex * (SegmentsPerSector : Int)) % (2 ^ 64 : Int)).toNat

/-- `renter.SectorSlice`: one `Append`'s commitment. `Offset` and `Length`
are `uint32` in Go but always at most `SectorSize`, so `Nat` is exact;
`MerkleRoot` is `none` until `Finish` assigns it. -/
structure SectorSlice where
  offset : Nat
  length : Nat
  checksum : Nat
  merkleRoot : Option Nat
  deriving Repr, DecidableEq, Inhabited

/-- `renter.SectorBuilder`. Go holds a fixed 4 MiB array of which only the
first `sectorLen` bytes are meaningful; the model stores that written prefix
in `sector`. -/
structure SectorBuilder where
  sector : List Nat
  sectorLen : Nat
  slices : List SectorSlice
  deriving Repr, DecidableEq

/-- `SectorBuilder.Reset` / the zero value: an empty sector. -/
def SectorBuilder.reset : SectorBuilder := ⟨[], 0, []⟩

/-- `SectorBuilder.Append`, run Go-style: the overflow check precedes every
mutation, so the panic path returns the builder unchanged together with the
panic message. `hash` stands for `crypto.HashBytes`, `encrypt` for
`key.EncryptSegments` applied at the given start index, and `rngPad` for the
`fastrand.Read` padding bytes. -/
def SectorBuilder.appendRun (hash : List Nat → Nat)
    (encrypt : List Nat → Nat → List Nat) (sb : SectorBuilder)
    (data rngPad : List Nat) (chunkIndex : Int) :
    SectorBuilder × Option String :=
  let padding := paddingFor data.length
  if sb.sectorLen + data.length + padding > SectorSize then
    (sb, some "data exceeds sector size")
  else
    let sectorSlice := encrypt (data ++ rngPad) (startIndex chunkIndex)
    ({ sector := sb.sector ++ sectorSlice
       sectorLen := sb.sectorLen + (data.length + padding)
       slices := sb.slices ++
        [{ offset := sb.sectorLen, length := data.length,
           checksum := hash data, merkleRoot := none }] }, none)

/-- `SectorBuilder.Finish`: fill the tail with random bytes (`rngTail`),
mark the sector full, and stamp every pending slice with the sector's Merkle
root (`sectorMerkleRoot` stands for `proto.SectorMerkleRoot`). The `sector`
field of the result is the buffer Go returns a pointer to. -/
def SectorBuilder.finish (sectorMerkleRoot : List Nat → Nat)
    (sb : SectorBuilder) (rngTail : List Nat) : SectorBuilder :=
  let sector := sb.sector ++ rngTail
  let root := sectorMerkleRoot sector
  { sector := sector
    sectorLen := SectorSize
    slices := sb.slices.map fun s => { s with merkleRoot := some root } }

/-- `ShardUploader.EncryptAndUpload` over an abstract shard state `σ`:
`upload` stands for `u.Uploader.Upload` and `writeSlice` for
`u.Shard.WriteSlice` (both outside `src/`); each failure path returns the
shard state unchanged. The middle match is Go's `Append` panic, unreachable
under the size check. -/
def encryptAndUpload {σ : Type} (hash : List Nat → Nat)
    (encrypt : List Nat → Nat → List Nat) (sectorMerkleRoot : List Nat → Nat)
    (upload : List Nat → Except String Unit)
    (writeSlice : σ → SectorSlice → Int → Except String σ)
    (shard : σ) (data rngPad rngTail : List Nat) (chunkIndex : Int) :
    Except String SectorSlice × σ :=
  if data.length > SectorSize then (.error "data exceeds sector size", shard)
  else
    match SectorBuilder.appendRun hash encrypt SectorBuilder.reset data rngPad chunkIndex with
    | (_, some e) => (.error e, shard)
    | (sb1, none) =>
      let sb2 := sb1.finish sectorMerkleRoot rngTail
      match upload sb2.sector with
      | .error e => (.error e, shard)
      | .ok _ =>
        let ss := sb2.slices.headD default
        match writeSlice shard ss chunkIndex with
        | .error e => (.error ("could not write to shard file: " ++ e), shard)
        | .ok shard2 => (.ok ss, shard2)

/-- Outcome of `modules.ReadNegotiationAcceptance`: `nil`, `ErrStopResponse`,
or any other error. -/
inductive NegotiationResponse where
  | accepted
  | stopResponse
  | rejected (msg : String)
  deriving Repr, DecidableEq

/-- A message the renter writes on the connection. -/
inductive OutMsg where
  | acceptance
  | stop
  deriving Repr, DecidableEq

/-- `types.TransactionSignature` (covered fields kept opaque). -/
structure TransactionSignature where
  parentID : Nat
  publicKeyIndex : Nat
  coveredFields : Nat
  signature : Nat
  deriving Repr, DecidableEq

/-- `types.Transaction`, restricted to the fields `negotiateRevision`
touches. -/
structure Transaction where
  fileContractRevisions : List FileContractRevision
  transactionSignatures : List TransactionSignature
  deriving Repr, DecidableEq

/-- The renter-signed revision transaction `negotiateRevision` constructs:
one revision, one signature by the renter key over the transaction's sig
hash (`sigHash` stands for `Transaction.SigHash 0`, `signHash` for
`crypto.SignHash`). -/
def renterSignedTxn (sigHash : Transaction → Nat → Nat)
    (signHash : Nat → Nat → Nat) (rev : FileContractRevision)
    (secretKey : Nat) : Transaction :=
  let signedTxn : Transaction :=
    { fileContractRevisions := [rev]
      transactionSignatures :=
        [{ parentID := rev.parentID, publicKeyIndex := 0, coveredFields := 0,
           signature := 0 }] }
  let encodedSig := signHash (sigHash signedTxn 0) secretKey
  { signedTxn with transactionSignatures :=
      [{ parentID := rev.parentID, publicKeyIndex := 0, coveredFields := 0,
         signature := encodedSig }] }

/-- `negotiateRevision` (negotiate.go). Connection script inputs: success of
the two writes, the host's two acceptance responses, and the host-signature
read. `standaloneValid` stands for `Transaction.StandaloneValid` at a block
height. The `Bool` in the result records whether the host answered the
renter's signature with `ErrStopResponse` (returned to the caller alongside
the completed transaction, as the Go function returns `responseErr`). -/
def negotiateRevision (sigHash : Transaction → Nat → Nat)
    (signHash : Nat → Nat → Nat)
    (standaloneValid : Transaction → Nat → Bool)
    (writeRevOk writeSigOk : Bool)
    (resp1 resp2 : NegotiationResponse)
    (hostSigRead : Except String TransactionSignature)
    (rev : FileContractRevision) (secretKey : Nat) :
    Except String (Transaction × Bool) :=
  let signedTxn := renterSignedTxn sigHash signHash rev secretKey
  if ¬ writeRevOk then .error "could not send revision"
  else if resp1 ≠ .accepted then .error "host did not accept revision"
  else if ¬ writeSigOk then .error "could not send transaction signature"
  else match resp2 with
  | .rejected msg => .error ("host did not accept transaction signature: " ++ msg)
  | _ =>
    match hostSigRead with
    | .error _ => .error "could not read host's signature"
    | .ok hostSig =>
      let verificationHeight := rev.newWindowStart - 1
      let fullTxn := { signedTxn with transactionSignatures :=
          signedTxn.transactionSignatures ++ [hostSig] }
      if ¬ standaloneValid fullTxn verificationHeight then
        .error "negotiated transaction is invalid"
      else
        .ok (fullTxn, resp2 == .stopResponse)

/-- `hostdb.HostSettings`, restricted to the fields the negotiator reads. -/
structure HostSettings where
  netAddress : Nat
  storagePrice : Nat
  uploadBandwidthPrice : Nat
  downloadBandwidthPrice : Nat
  deriving Repr, DecidableEq

/-- `hostdb.ScannedHost`: a public key plus embedded settings. -/
structure ScannedHost where
  settings : HostSettings
  publicKey : Nat
  deriving Repr, DecidableEq

/-- `verifySettings` (negotiate.go): `recv` is the result of
`crypto.ReadSignedObject` (`none` when the read or the signature check
fails). A received net address that differs from the dialed one is
overwritten with the dialed address; the settings are then installed in the
returned host. -/
def verifySettings (recv : Option HostSettings) (host : ScannedHost) :
    Except String ScannedHost :=
  match recv with
  | none => .error "could not read signed host settings"
  | some recvSettings =>
    let recvSettings :=
      if recvSettings.netAddress ≠ host.settings.netAddress then
        { recvSettings with netAddress := host.settings.netAddress }
      else recvSettings
    .ok { host with settings := recvSettings }

/-- `startRevision` (negotiate.go): verify the settings, fail if any of the
three prices increased (checked upload, download, storage, in that order),
otherwise adopt the new settings and write an acceptance. The returned list
holds the messages written. -/
def startRevision (recv : Option HostSettings) (host : ScannedHost) :
    Except String ScannedHost × List OutMsg :=
  match verifySettings recv host with
  | .error e => (.error e, [])
  | .ok newhost =>
    if newhost.settings.uploadBandwidthPrice > host.settings.uploadBandwidthPrice then
      (.error "host upload price increased", [])
    else if newhost.settings.downloadBandwidthPrice > host.settings.downloadBandwidthPrice then
      (.error "host download price increased", [])
    else if newhost.settings.storagePrice > host.settings.storagePrice then
      (.error "host storage price increased", [])
    else (.ok newhost, [.acceptance])

/-- The session state a revision iteration threads: the cached host entry
and the last committed revision. -/
structure IterationState where
  host : ScannedHost
  committed : Option FileContractRevision
  deriving Repr, DecidableEq

/-- Modelled from the spec: the revision-loop caller of `startRevision`
(the `proto` session code, not under `src/`): when `startRevision` fails the
iteration fails, a negotiation-stop is sent, and no revision is committed;
on success the cached host entry is replaced and the iteration proceeds. -/
def revisionIterationStart (recv : Option HostSettings) (st : IterationState) :
    Except String Unit × IterationState × List OutMsg :=
  match startRevision recv st.host with
  | (.error e, out) => (.error e, st, out ++ [.stop])
  | (.ok newhost, out) => (.ok (), { st with host := newhost }, out)

/-- The `ContractTransaction` / `ContractEditor` view `verifyRecentRevision`
and `initiateRPC` consume: contract ID, renter key, current revision and end
height. -/
structure ContractTransaction where
  id : Nat
  renterKey : Nat
  currentRevision : FileContractRevision
  endHeight : Nat
  deriving Repr, DecidableEq

/-- The host's side of the recent-revision handshake: the challenge (with
its encoded size), the acceptance, and the revision and signature list (each
with its encoded size, checked against the read limits). -/
structure VRRScript where
  challenge : Nat
  challengeSize : Nat
  accept : NegotiationResponse
  hostRevision : FileContractRevision
  revisionSize : Nat
  hostSignatures : List TransactionSignature
  signaturesSize : Nat
  deriving Repr, DecidableEq

/-- `verifyRecentRevision` (negotiate.go): send the contract ID, read a
32-byte challenge, sign it (the signature is written, not used further
here), read the acceptance, read the host revision and signatures under a
2048-byte limit each, verify the transaction signatures at
`endHeight - 1` (`verifyRevSigs` stands for
`modules.VerifyFileContractRevisionTransactionSignatures`), and require the
unlock-conditions hashes to match (`unlockHash` stands for
`UnlockConditions.UnlockHash`). -/
def verifyRecentRevision (signHash : Nat → Nat → Nat)
    (verifyRevSigs : FileContractRevision → List TransactionSignature → Nat → Bool)
    (unlockHash : Nat → Nat) (inp : VRRScript) (contract : ContractTransaction) :
    Except String (FileContractRevision × List TransactionSignature) :=
  if inp.challengeSize > 32 then .error "could not read challenge"
  else
    let _sig := signHash inp.challenge contract.renterKey
    if inp.accept ≠ .accepted then .error "host did not accept revision request"
    else if inp.revisionSize > 2048 then .error "could not read host revision"
    else if inp.signaturesSize > 2048 then .error "could not read host signatures"
    else if ¬ verifyRevSigs inp.hostRevision inp.hostSignatures (contract.endHeight - 1) then
      .error "host sent invalid transaction"
    else if unlockHash inp.hostRevision.unlockConditions ≠
        unlockHash contract.currentRevision.unlockConditions then
      .error "unlock conditions do not match"
    else .ok (inp.hostRevision, inp.hostSignatures)

/-- `initiateRPC` (negotiate.go): dial, write the RPC specifier, run
`verifyRecentRevision`, and only on its success call
`contract.SyncWithHost` (`syncWithHost`, a `ContractEditor` method outside
`src/`, modelled as a state transformer). The returned contract is the
local contract state after the call. -/
def initiateRPC (dialOk writeRPCOk : Bool) (signHash : Nat → Nat → Nat)
    (verifyRevSigs : FileContractRevision → List TransactionSignature → Nat → Bool)
    (unlockHash : Nat → Nat)
    (syncWithHost : FileContractRevision → List TransactionSignature →
      ContractTransaction → Except String ContractTransaction)
    (inp : VRRScript) (contract : ContractTransaction) :
    Except String Unit × ContractTransaction :=
  if ¬ dialOk then (.error "could not dial host", contract)
  else if ¬ writeRPCOk then (.error "could not initiate RPC", contract)
  else match verifyRecentRevision signHash verifyRevSigs unlockHash inp contract with
  | .error e => (.error ("could not verify most recent contract revision: " ++ e), contract)
  | .ok (hostRev, hostSigs) =>
    match syncWithHost hostRev hostSigs contract with
    | .error e => (.error ("could not synchronize contract with host: " ++ e), contract)
    | .ok contract2 => (.ok (), contract2)

end Us

namespace Us

section RevisionLemmas

/-- Unfolding `newRevision` on a well-shaped revision (two valid outputs,
three missed outputs). -/
theorem newRevision_outputs (current : FileContractRevision) (cost : Nat)
    (vr vh mr mh mv : SiacoinOutput)
    (hv : current.newValidProofOutputs = [vr, vh])
    (hm : current.newMissedProofOutputs = [mr, mh, mv]) :
    (newRevision current cost).newValidProofOutputs =
      [⟨vr.value - cost, vr.unlockHash⟩, ⟨vh.value + cost, vh.unlockHash⟩] ∧
    (newRevision current cost).newMissedProofOutputs =
      [⟨mr.value - cost, mr.unlockHash⟩, mh, ⟨mv.value + cost, mv.unlockHash⟩] ∧
    (newRevision current cost).newRevisionNumber = current.newRevisionNumber + 1 ∧
    (newRevision current cost).newFileSize = current.newFileSize ∧
    (newRevision current cost).newFileMerkleRoot = current.newFileMerkleRoot ∧
    (newRevision current cost).unlockConditions = current.unlockConditions ∧
    (newRevision current cost).parentID = current.parentID := by
  simp [newRevision, hv, hm, copyMake, setValue, valueAt, List.set]

/-- Unfolding `newUploadRevision` on a well-shaped revision. -/
theorem newUploadRevision_outputs (current : FileContractRevision)
    (merkleRoot price collateral : Nat)
    (vr vh mr mh mv : SiacoinOutput)
    (hv : current.newValidProofOutputs = [vr, vh])
    (hm : current.newMissedProofOutputs = [mr, mh, mv]) :
    (newUploadRevision current merkleRoot price collateral).newValidProofOutputs =
      [⟨vr.value - price, vr.unlockHash⟩, ⟨vh.value + price, vh.unlockHash⟩] ∧
    (newUploadRevision current merkleRoot price collateral).newMissedProofOutputs =
      [⟨mr.value - price, mr.unlockHash⟩, ⟨mh.value - collateral, mh.unlockHash⟩,
        ⟨mv.value + price + collateral, mv.unlockHash⟩] ∧
    (newUploadRevision current merkleRoot price collateral).newRevisionNumber =
      current.newRevisionNumber + 1 ∧
    (newUploadRevision current merkleRoot price collateral).newFileSize =
      current.newFileSize + SectorSize ∧
    (newUploadRevision current merkleRoot price collateral).newFileMerkleRoot =
      merkleRoot := by
  simp [newUploadRevision, hv, hm, newRevision, copyMake, setValue, valueAt, List.set]

end RevisionLemmas

/-- C1: for every current revision and cost (and, for uploads, collateral and
Merkle root), with the renter's valid and missed outputs at least `cost` and
the host's missed output at least `collateral`, `newRevision` yields the
current revision with `cost` moved renter→host in the valid outputs,
renter→void in the missed outputs and the revision number incremented, and
`newUploadRevision` additionally moves `collateral` host→void in the missed
outputs, grows the file size by `SectorSize` and installs the supplied Merkle
root. -/
theorem claim1_revision_arithmetic (current : FileContractRevision)
    (cost merkleRoot collateral : Nat) (vr vh mr mh mv : SiacoinOutput)
    (hv : current.newValidProofOutputs = [vr, vh])
    (hm : current.newMissedProofOutputs = [mr, mh, mv])
    (hvr : cost ≤ vr.value) (hmr : cost ≤ mr.value) (hmh : collateral ≤ mh.value) :
    ((newRevision current cost).newValidProofOutputs =
        [⟨vr.value - cost, vr.unlockHash⟩, ⟨vh.value + cost, vh.unlockHash⟩] ∧
      valueAt (newRevision current cost).newValidProofOutputs 0 + cost = vr.value ∧
      (newRevision current cost).newMissedProofOutputs =
        [⟨mr.value - cost, mr.unlockHash⟩, mh, ⟨mv.value + cost, mv.unlockHash⟩] ∧
      valueAt (newRevision current cost).newMissedProofOutputs 0 + cost = mr.value ∧
      (newRevision current cost).newRevisionNumber = current.newRevisionNumber + 1 ∧
      (newRevision current cost).newFileSize = current.newFileSize ∧
      (newRevision current cost).newFileMerkleRoot = current.newFileMerkleRoot) ∧
    ((newUploadRevision current merkleRoot cost collateral).newValidProofOutputs =
        [⟨vr.value - cost, vr.unlockHash⟩, ⟨vh.value + cost, vh.unlockHash⟩] ∧
      (newUploadRevision current merkleRoot cost collateral).newMissedProofOutputs =
        [⟨mr.value - cost, mr.unlockHash⟩, ⟨mh.value - collateral, mh.unlockHash⟩,
          ⟨mv.value + cost + collateral, mv.unlockHash⟩] ∧
      valueAt (newUploadRevision current merkleRoot cost collateral).newMissedProofOutputs 1
          + collateral = mh.value ∧
      (newUploadRevision current merkleRoot cost collateral).newRevisionNumber =
        current.newRevisionNumber + 1 ∧
      (newUploadRevision current merkleRoot cost collateral).newFileSize =
        current.newFileSize + SectorSize ∧
      (newUploadRevision current merkleRoot cost collateral).newFileMerkleRoot =
        merkleRoot) := by
  obtain ⟨hv1, hm1, hn1, hf1, hr1, -, -⟩ := newRevision_outputs current cost vr vh mr mh mv hv hm
  obtain ⟨hv2, hm2, hn2, hf2, hr2⟩ :=
    newUploadRevision_outputs current merkleRoot cost collateral vr vh mr mh mv hv hm
  refine ⟨⟨hv1, ?_, hm1, ?_, hn1, hf1, hr1⟩, ⟨hv2, hm2, ?_, hn2, hf2, hr2⟩⟩
  · rw [hv1]; simp [valueAt]; omega
  · rw [hm1]; simp [valueAt]; omega
  · rw [hm2]; simp [valueAt]; omega

/-- Witness for C1 at a concrete revision. -/
theorem claim1_revision_arithmetic_witness :
    (newRevision
        { parentID := 1, unlockConditions := 2, newRevisionNumber := 5,
          newFileSize := 0, newFileMerkleRoot := 0, newWindowStart := 100,
          newWindowEnd := 200,
          newValidProofOutputs := [⟨10, 7⟩, ⟨3, 8⟩],
          newMissedProofOutputs := [⟨10, 7⟩, ⟨4, 8⟩, ⟨0, 9⟩],
          newUnlockHash := 0 } 2).newValidProofOutputs = [⟨8, 7⟩, ⟨5, 8⟩] := by
  have h := claim1_revision_arithmetic
    { parentID := 1, unlockConditions := 2, newRevisionNumber := 5,
      newFileSize := 0, newFileMerkleRoot := 0, newWindowStart := 100,
      newWindowEnd := 200,
      newValidProofOutputs := [⟨10, 7⟩, ⟨3, 8⟩],
      newMissedProofOutputs := [⟨10, 7⟩, ⟨4, 8⟩, ⟨0, 9⟩],
      newUnlockHash := 0 } 2 42 3 ⟨10, 7⟩ ⟨3, 8⟩ ⟨10, 7⟩ ⟨4, 8⟩ ⟨0, 9⟩
    rfl rfl (by decide) (by decide) (by decide)
  exact h.1.1

/-- C2: under the same preconditions, both `newRevision` and
`newUploadRevision` conserve coins: the sums of the valid outputs and of the
missed outputs equal the corresponding sums of the previous revision. -/
theorem claim2_coin_conservation (current : FileContractRevision)
    (cost merkleRoot collateral : Nat) (vr vh mr mh mv : SiacoinOutput)
    (hv : current.newValidProofOutputs = [vr, vh])
    (hm : current.newMissedProofOutputs = [mr, mh, mv])
    (hvr : cost ≤ vr.value) (hmr : cost ≤ mr.value) (hmh : collateral ≤ mh.value) :
    sumValues (newRevision current cost).newValidProofOutputs =
      sumValues current.newValidProofOutputs ∧
    sumValues (newRevision current cost).newMissedProofOutputs =
      sumValues current.newMissedProofOutputs ∧
    sumValues (newUploadRevision current merkleRoot cost collateral).newValidProofOutputs =
      sumValues current.newValidProofOutputs ∧
    sumValues (newUploadRevision current merkleRoot cost collateral).newMissedProofOutputs =
      sumValues current.newMissedProofOutputs := by
  obtain ⟨hv1, hm1, -, -, -, -, -⟩ := newRevision_outputs current cost vr vh mr mh mv hv hm
  obtain ⟨hv2, hm2, -, -, -⟩ :=
    newUploadRevision_outputs current merkleRoot cost collateral vr vh mr mh mv hv hm
  rw [hv, hm, hv1, hm1, hv2, hm2]
  simp only [sumValues, List.map, List.sum_cons, List.sum_nil]
  omega

/-- Witness for C2 at a concrete revision. -/
theorem claim2_coin_conservation_witness :
    sumValues (newRevision
        { parentID := 1, unlockConditions := 2, newRevisionNumber := 5,
          newFileSize := 0, newFileMerkleRoot := 0, newWindowStart := 100,
          newWindowEnd := 200,
          newValidProofOutputs := [⟨10, 7⟩, ⟨3, 8⟩],
          newMissedProofOutputs := [⟨10, 7⟩, ⟨4, 8⟩, ⟨0, 9⟩],
          newUnlockHash := 0 } 2).newValidProofOutputs = 13 := by
  have h := claim2_coin_conservation
    { parentID := 1, unlockConditions := 2, newRevisionNumber := 5,
      newFileSize := 0, newFileMerkleRoot := 0, newWindowStart := 100,
      newWindowEnd := 200,
      newValidProofOutputs := [⟨10, 7⟩, ⟨3, 8⟩],
      newMissedProofOutputs := [⟨10, 7⟩, ⟨4, 8⟩, ⟨0, 9⟩],
      newUnlockHash := 0 } 2 42 3 ⟨10, 7⟩ ⟨3, 8⟩ ⟨10, 7⟩ ⟨4, 8⟩ ⟨0, 9⟩
    rfl rfl (by decide) (by decide) (by decide)
  rw [h.1]; decide

/-- `SectorSize` is a multiple of the segment size, so rounding a length of at
most `SectorSize` up to a segment boundary stays within `SectorSize`. -/
theorem roundUpSegment_le {n m : Nat} (h : n ≤ m) (hm : m % SegmentSize = 0) :
    roundUpSegment n ≤ m := by
  simp only [roundUpSegment, paddingFor, SegmentSize] at *
  split <;> omega

/-- C3: `SectorBuilder.Append` fails (Go panics before any mutation, so the
builder is returned unchanged) exactly with the message
"data exceeds sector size" whenever the builder length plus the data length
rounded up to the next `SegmentSize` boundary exceeds `SectorSize`. -/
theorem claim3_append_overflow (hash : List Nat → Nat)
    (encrypt : List Nat → Nat → List Nat) (sb : SectorBuilder)
    (data rngPad : List Nat) (chunkIndex : Int)
    (h : sb.sectorLen + roundUpSegment data.length > SectorSize) :
    SectorBuilder.appendRun hash encrypt sb data rngPad chunkIndex =
      (sb, some "data exceeds sector size") := by
  simp only [roundUpSegment] at h
  unfold SectorBuilder.appendRun
  rw [if_pos (by omega)]

/-- Witness for C3: appending 4 MiB + 1 bytes to a fresh builder in a single
call overflows. -/
theorem claim3_append_overflow_witness :
    SectorBuilder.reset.sectorLen +
        roundUpSegment (List.replicate (SectorSize + 1) 0).length > SectorSize ∧
      SectorBuilder.appendRun (fun l => l.sum) (fun l _ => l) SectorBuilder.reset
        (List.replicate (SectorSize + 1) 0) [] 0 =
      (SectorBuilder.reset, some "data exceeds sector size") := by
  have hlen : SectorBuilder.reset.sectorLen +
      roundUpSegment (List.replicate (SectorSize + 1) 0).length > SectorSize := by
    rw [List.length_replicate]
    decide
  exact ⟨hlen, claim3_append_overflow (fun l => l.sum) (fun l _ => l)
    SectorBuilder.reset (List.replicate (SectorSize + 1) 0) [] 0 hlen⟩

/-- C7: for chunk indices below `2^48` the starting segment index computed by
`Append` is exactly `chunkIndex * SegmentsPerSector` (no 64-bit wrap), the
per-chunk segment ranges of two distinct chunk indices are disjoint, and a
successful `Append` encrypts at most `SegmentsPerSector` segments. -/
theorem claim7_segment_nonreuse (i j s : Nat) (hash : List Nat → Nat)
    (encrypt : List Nat → Nat → List Nat) (sb : SectorBuilder)
    (data rngPad : List Nat) (chunkIndex : Int)
    (hi : i < 2 ^ 48) (hj : j < 2 ^ 48) (hij : i ≠ j) :
    startIndex (i : Int) = i * SegmentsPerSector ∧
    ¬ (startIndex (i : Int) ≤ s ∧ s < startIndex (i : Int) + SegmentsPerSector ∧
       startIndex (j : Int) ≤ s ∧ s < startIndex (j : Int) + SegmentsPerSector) ∧
    ((SectorBuilder.appendRun hash encrypt sb data rngPad chunkIndex).2 = none →
      roundUpSegment data.length / SegmentSize ≤ SegmentsPerSector) := by
  have hP : SegmentsPerSector = 65536 := by decide
  have h48 : (2 : Nat) ^ 48 = 281474976710656 := by norm_num
  have key : ∀ k : Nat, k < 2 ^ 48 → startIndex (k : Int) = k * SegmentsPerSector := by
    intro k hk
    unfold startIndex
    have hcast : (k : Int) * (SegmentsPerSector : Int) =
        ((k * SegmentsPerSector : Nat) : Int) := by push_cast; ring
    have hlt : (k * SegmentsPerSector : Nat) < 2 ^ 64 := by
      have h64 : (2 : Nat) ^ 64 = 18446744073709551616 := by norm_num
      rw [hP, h64]; rw [h48] at hk; omega
    rw [hcast, Int.emod_eq_of_lt (Int.natCast_nonneg _) (by exact_mod_cast hlt),
      Int.toNat_natCast]
  refine ⟨key i hi, ?_, ?_⟩
  · rw [key i hi, key j hj, hP]
    rintro ⟨h1, h2, h3, h4⟩
    omega
  · intro hnone
    simp only [SectorBuilder.appendRun] at hnone
    split at hnone
    · simp at hnone
    · rename_i hcond
      have hss : SectorSize = 4194304 := by decide
      have hseg : SegmentSize = 64 := by decide
      rw [hss] at hcond
      simp only [roundUpSegment]
      rw [hseg, hP]
      omega

/-- Witness for C7 at chunk indices 0 and 1. -/
theorem claim7_segment_nonreuse_witness :
    (0 : Nat) < 2 ^ 48 ∧ (1 : Nat) < 2 ^ 48 ∧ (0 : Nat) ≠ 1 ∧
    startIndex ((0 : Nat) : Int) = 0 * SegmentsPerSector ∧
    ¬ (startIndex ((0 : Nat) : Int) ≤ 5 ∧
       5 < startIndex ((0 : Nat) : Int) + SegmentsPerSector ∧
       startIndex ((1 : Nat) : Int) ≤ 5 ∧
       5 < startIndex ((1 : Nat) : Int) + SegmentsPerSector) := by
  have h := claim7_segment_nonreuse 0 1 5 (fun l => l.sum) (fun l _ => l)
    SectorBuilder.reset [] [] 0 (by norm_num) (by norm_num) (by decide)
  exact ⟨by norm_num, by norm_num, by decide, h.1, h.2.1⟩

/-- C8: a successful `Append` records the slice
`{offset = previous length, length = |data|, checksum = hash data}` and
advances the length by the padded size; `Finish` stamps every recorded slice
with the Merkle root of the finished sector; appending 3 then 5 bytes yields
slices `{0,3}` and `{64,5}` sharing one root. -/
theorem claim8_append_slices (hash : List Nat → Nat)
    (encrypt : List Nat → Nat → List Nat) (smr : List Nat → Nat)
    (sb : SectorBuilder) (data rngPad rngTail p1 p2 tl : List Nat)
    (chunkIndex : Int) :
    (sb.sectorLen + roundUpSegment data.length ≤ SectorSize →
      SectorBuilder.appendRun hash encrypt sb data rngPad chunkIndex =
        ({ sector := sb.sector ++ encrypt (data ++ rngPad) (startIndex chunkIndex)
           sectorLen := sb.sectorLen + roundUpSegment data.length
           slices := sb.slices ++
            [{ offset := sb.sectorLen, length := data.length,
               checksum := hash data, merkleRoot := none }] }, none)) ∧
    (∀ t ∈ (SectorBuilder.finish smr sb rngTail).slices,
      t.merkleRoot = some (smr (SectorBuilder.finish smr sb rngTail).sector)) ∧
    ((((SectorBuilder.appendRun hash encrypt
          (SectorBuilder.appendRun hash encrypt SectorBuilder.reset
            [1, 2, 3] p1 0).1 [4, 5, 6, 7, 8] p2 1).1).finish smr tl).slices =
      [{ offset := 0, length := 3, checksum := hash [1, 2, 3],
         merkleRoot := some (smr ((((SectorBuilder.appendRun hash encrypt
          (SectorBuilder.appendRun hash encrypt SectorBuilder.reset
            [1, 2, 3] p1 0).1 [4, 5, 6, 7, 8] p2 1).1).finish smr tl).sector)) },
       { offset := 64, length := 5, checksum := hash [4, 5, 6, 7, 8],
         merkleRoot := some (smr ((((SectorBuilder.appendRun hash encrypt
          (SectorBuilder.appendRun hash encrypt SectorBuilder.reset
            [1, 2, 3] p1 0).1 [4, 5, 6, 7, 8] p2 1).1).finish smr tl).sector)) }]) := by
  have happend : ∀ (b : SectorBuilder) (d rp : List Nat) (ci : Int),
      b.sectorLen + roundUpSegment d.length ≤ SectorSize →
      SectorBuilder.appendRun hash encrypt b d rp ci =
        ({ sector := b.sector ++ encrypt (d ++ rp) (startIndex ci)
           sectorLen := b.sectorLen + roundUpSegment d.length
           slices := b.slices ++
            [{ offset := b.sectorLen, length := d.length,
               checksum := hash d, merkleRoot := none }] }, none) := by
    intro b d rp ci h
    simp only [roundUpSegment] at h ⊢
    simp only [SectorBuilder.appendRun]
    rw [if_neg (by omega)]
  refine ⟨happend sb data rngPad chunkIndex, ?_, ?_⟩
  · intro t ht
    simp only [SectorBuilder.finish, List.mem_map] at ht
    obtain ⟨t0, -, rfl⟩ := ht
    rfl
  · have h1 := happend SectorBuilder.reset [1, 2, 3] p1 0 (by decide)
    rw [h1]
    dsimp only
    have h2 := happend
      { sector := SectorBuilder.reset.sector ++ encrypt ([1, 2, 3] ++ p1) (startIndex 0)
        sectorLen := SectorBuilder.reset.sectorLen + roundUpSegment ([1, 2, 3] : List Nat).length
        slices := SectorBuilder.reset.slices ++
          [{ offset := SectorBuilder.reset.sectorLen
             length := ([1, 2, 3] : List Nat).length
             checksum := hash [1, 2, 3]
             merkleRoot := none }] }
      [4, 5, 6, 7, 8] p2 1
      (by exact (by decide :
        SectorBuilder.reset.sectorLen + roundUpSegment 3 + roundUpSegment 5 ≤ SectorSize))
    rw [h2]
    dsimp only
    simp only [SectorBuilder.finish, SectorBuilder.reset, List.map]
    norm_num [roundUpSegment, paddingFor, SegmentSize]

/-- Witness for C8: appending one byte to a fresh builder succeeds and records
the expected slice. -/
theorem claim8_append_slices_witness :
    SectorBuilder.reset.sectorLen + roundUpSegment ([9] : List Nat).length ≤ SectorSize ∧
    (SectorBuilder.appendRun List.sum (fun l _ => l) SectorBuilder.reset [9] [0] 0).2
      = none := by
  have h := (claim8_append_slices List.sum (fun l _ => l) (fun l => l.length)
    SectorBuilder.reset [9] [0] [] [] [] [] 0).1
  exact ⟨by decide, by rw [h (by decide)]⟩

/-- C9: `EncryptAndUpload` rejects inputs larger than a sector immediately,
and when the host upload fails it propagates that error with the shard state
untouched — a slice reaches the shard file only after a successful upload. -/
theorem claim9_upload_before_write {σ : Type} (hash : List Nat → Nat)
    (encrypt : List Nat → Nat → List Nat) (smr : List Nat → Nat)
    (upload : List Nat → Except String Unit)
    (writeSlice : σ → SectorSlice → Int → Except String σ)
    (shard : σ) (data rngPad rngTail : List Nat) (chunkIndex : Int) (e : String) :
    (data.length > SectorSize →
      encryptAndUpload hash encrypt smr upload writeSlice shard data rngPad rngTail
          chunkIndex =
        (.error "data exceeds sector size", shard)) ∧
    (data.length ≤ SectorSize →
      upload (((SectorBuilder.appendRun hash encrypt SectorBuilder.reset data rngPad
          chunkIndex).1).finish smr rngTail).sector = .error e →
      encryptAndUpload hash encrypt smr upload writeSlice shard data rngPad rngTail
          chunkIndex =
        (.error e, shard)) := by
  constructor
  · intro hgt
    unfold encryptAndUpload
    rw [if_pos hgt]
  · intro hle hup
    have hround : roundUpSegment data.length ≤ SectorSize :=
      roundUpSegment_le hle (by decide)
    simp only [roundUpSegment] at hround
    have happ : SectorBuilder.appendRun hash encrypt SectorBuilder.reset data rngPad
        chunkIndex =
        ({ sector := SectorBuilder.reset.sector ++
            encrypt (data ++ rngPad) (startIndex chunkIndex)
           sectorLen := SectorBuilder.reset.sectorLen + (data.length + paddingFor data.length)
           slices := SectorBuilder.reset.slices ++
            [{ offset := SectorBuilder.reset.sectorLen
               length := data.length
               checksum := hash data
               merkleRoot := none }] }, none) := by
      simp only [SectorBuilder.appendRun]
      rw [if_neg (by simp only [SectorBuilder.reset]; omega)]
    rw [happ] at hup
    dsimp only at hup
    unfold encryptAndUpload
    rw [if_neg (by omega), happ]
    dsimp only
    rw [hup]

/-- Witness for C9: a failing upload oracle propagates its error and leaves
the shard state (here the number 7) unchanged. -/
theorem claim9_upload_before_write_witness :
    ([9] : List Nat).length ≤ SectorSize ∧
    encryptAndUpload List.sum (fun l _ => l) (fun l => l.length)
        (fun _ => .error "boom") (fun (s : Nat) _ _ => .ok s) 7 [9] [0] [] 0 =
      (.error "boom", 7) := by
  have h := (claim9_upload_before_write List.sum (fun l _ => l) (fun l => l.length)
    (fun _ => .error "boom") (fun (s : Nat) _ _ => .ok s) 7 [9] [0] [] 0 "boom").2
  exact ⟨by decide, h (by decide) rfl⟩

/-- C4: in `negotiateRevision`, a `StopResponse` answering the renter's
transaction signature still completes the iteration — the host signature is
read and appended, the transaction is validated at `newWindowStart - 1`, and
the signed transaction is returned with the stop indication — while any other
non-acceptance at that point fails without a transaction, and a transaction
invalid at that height fails even under `StopResponse`. -/
theorem claim4_stop_response_completes (sigHash : Transaction → Nat → Nat)
    (signHash : Nat → Nat → Nat) (standaloneValid : Transaction → Nat → Bool)
    (hs : TransactionSignature) (rev : FileContractRevision) (secretKey : Nat)
    (msg : String) :
    (standaloneValid
        { renterSignedTxn sigHash signHash rev secretKey with
          transactionSignatures :=
            (renterSignedTxn sigHash signHash rev secretKey).transactionSignatures ++ [hs] }
        (rev.newWindowStart - 1) = true →
      negotiateRevision sigHash signHash standaloneValid true true .accepted .stopResponse
          (.ok hs) rev secretKey =
        .ok ({ renterSignedTxn sigHash signHash rev secretKey with
          transactionSignatures :=
            (renterSignedTxn sigHash signHash rev secretKey).transactionSignatures ++ [hs] },
          true)) ∧
    (standaloneValid
        { renterSignedTxn sigHash signHash rev secretKey with
          transactionSignatures :=
            (renterSignedTxn sigHash signHash rev secretKey).transactionSignatures ++ [hs] }
        (rev.newWindowStart - 1) = false →
      negotiateRevision sigHash signHash standaloneValid true true .accepted .stopResponse
          (.ok hs) rev secretKey =
        .error "negotiated transaction is invalid") ∧
    (negotiateRevision sigHash signHash standaloneValid true true .accepted (.rejected msg)
        (.ok hs) rev secretKey =
      .error ("host did not accept transaction signature: " ++ msg)) := by
  refine ⟨fun hvalid => ?_, fun hinvalid => ?_, ?_⟩
  · simp [negotiateRevision, hvalid]
  · simp [negotiateRevision, hinvalid]
  · simp [negotiateRevision]

/-- Witness for C4 with an always-valid transaction oracle. -/
theorem claim4_stop_response_completes_witness :
    (fun (_ : Transaction) (_ : Nat) => true)
        { renterSignedTxn (fun _ _ => 0) (fun _ _ => 0)
            { parentID := 0, unlockConditions := 0, newRevisionNumber := 0,
              newFileSize := 0, newFileMerkleRoot := 0, newWindowStart := 10,
              newWindowEnd := 20, newValidProofOutputs := [],
              newMissedProofOutputs := [], newUnlockHash := 0 } 0 with
          transactionSignatures :=
            (renterSignedTxn (fun _ _ => 0) (fun _ _ => 0)
              { parentID := 0, unlockConditions := 0, newRevisionNumber := 0,
                newFileSize := 0, newFileMerkleRoot := 0, newWindowStart := 10,
                newWindowEnd := 20, newValidProofOutputs := [],
                newMissedProofOutputs := [], newUnlockHash := 0 } 0).transactionSignatures
              ++ [{ parentID := 0, publicKeyIndex := 1, coveredFields := 0,
                    signature := 5 }] }
        (10 - 1) = true ∧
    negotiateRevision (fun _ _ => 0) (fun _ _ => 0) (fun _ _ => true) true true
        .accepted .stopResponse
        (.ok { parentID := 0, publicKeyIndex := 1, coveredFields := 0, signature := 5 })
        { parentID := 0, unlockConditions := 0, newRevisionNumber := 0,
          newFileSize := 0, newFileMerkleRoot := 0, newWindowStart := 10,
          newWindowEnd := 20, newValidProofOutputs := [],
          newMissedProofOutputs := [], newUnlockHash := 0 } 0 =
      .ok ({ renterSignedTxn (fun _ _ => 0) (fun _ _ => 0)
          { parentID := 0, unlockConditions := 0, newRevisionNumber := 0,
            newFileSize := 0, newFileMerkleRoot := 0, newWindowStart := 10,
            newWindowEnd := 20, newValidProofOutputs := [],
            newMissedProofOutputs := [], newUnlockHash := 0 } 0 with
        transactionSignatures :=
          (renterSignedTxn (fun _ _ => 0) (fun _ _ => 0)
            { parentID := 0, unlockConditions := 0, newRevisionNumber := 0,
              newFileSize := 0, newFileMerkleRoot := 0, newWindowStart := 10,
              newWindowEnd := 20, newValidProofOutputs := [],
              newMissedProofOutputs := [], newUnlockHash := 0 } 0).transactionSignatures
            ++ [{ parentID := 0, publicKeyIndex := 1, coveredFields := 0,
                  signature := 5 }] }, true) := by
  have h := (claim4_stop_response_completes (fun _ _ => 0) (fun _ _ => 0)
    (fun _ _ => true)
    { parentID := 0, publicKeyIndex := 1, coveredFields := 0, signature := 5 }
    { parentID := 0, unlockConditions := 0, newRevisionNumber := 0,
      newFileSize := 0, newFileMerkleRoot := 0, newWindowStart := 10,
      newWindowEnd := 20, newValidProofOutputs := [],
      newMissedProofOutputs := [], newUnlockHash := 0 } 0 "x").1
  exact ⟨rfl, h rfl⟩

/-- When the signed settings are read and verified, `verifySettings` installs
them on the host with the net address forced back to the dialed one. -/
theorem verifySettings_ok (s : HostSettings) (host : ScannedHost) :
    verifySettings (some s) host =
      .ok { host with settings := { s with netAddress := host.settings.netAddress } } := by
  by_cases h : s.netAddress = host.settings.netAddress
  · simp only [verifySettings, h, ne_eq, not_true_eq_false, if_false]
    cases s
    simp_all
  · simp [verifySettings, h]

/-- C10: `verifySettings` always returns a host whose network address equals
the dialed address: settings carrying a different address have that field
silently overwritten, so the host cannot redirect the session. -/
theorem claim10_netaddress_pinned (s : HostSettings) (host : ScannedHost) :
    verifySettings (some s) host =
      .ok { host with settings := { s with netAddress := host.settings.netAddress } } :=
  verifySettings_ok s host

/-- C5: after the settings are read and verified, the iteration fails when
any of the storage, upload or download prices strictly exceeds the cached
value — nothing is written but a negotiation-stop, no revision is committed
and the cached host entry is unchanged — and otherwise the new settings are
cached and an `Acceptance` is written. -/
theorem claim5_price_increase (s : HostSettings) (st : IterationState) :
    ((s.storagePrice > st.host.settings.storagePrice ∨
        s.uploadBandwidthPrice > st.host.settings.uploadBandwidthPrice ∨
        s.downloadBandwidthPrice > st.host.settings.downloadBandwidthPrice) →
      ∃ e, startRevision (some s) st.host = (.error e, []) ∧
        (e = "host upload price increased" ∨ e = "host download price increased" ∨
          e = "host storage price increased") ∧
        revisionIterationStart (some s) st = (.error e, st, [.stop])) ∧
    (s.storagePrice ≤ st.host.settings.storagePrice →
      s.uploadBandwidthPrice ≤ st.host.settings.uploadBandwidthPrice →
      s.downloadBandwidthPrice ≤ st.host.settings.downloadBandwidthPrice →
      startRevision (some s) st.host =
        (.ok { st.host with settings := { s with netAddress := st.host.settings.netAddress } },
          [.acceptance]) ∧
      revisionIterationStart (some s) st =
        (.ok (), { st with host := { st.host with settings :=
          { s with netAddress := st.host.settings.netAddress } } }, [.acceptance])) := by
  have hset := verifySettings_ok s st.host
  constructor
  · intro hinc
    by_cases hu : s.uploadBandwidthPrice > st.host.settings.uploadBandwidthPrice
    · refine ⟨"host upload price increased", ?_, Or.inl rfl, ?_⟩ <;>
        simp [startRevision, revisionIterationStart, hset, hu]
    · by_cases hd : s.downloadBandwidthPrice > st.host.settings.downloadBandwidthPrice
      · refine ⟨"host download price increased", ?_, Or.inr (Or.inl rfl), ?_⟩ <;>
          simp [startRevision, revisionIterationStart, hset, hu, hd]
      · have hsp : s.storagePrice > st.host.settings.storagePrice := by
          rcases hinc with h | h | h <;> omega
        refine ⟨"host storage price increased", ?_, Or.inr (Or.inr rfl), ?_⟩ <;>
          simp [startRevision, revisionIterationStart, hset, hu, hd, hsp]
  · intro h1 h2 h3
    constructor <;>
      simp [startRevision, revisionIterationStart, hset, Nat.not_lt.mpr h1,
        Nat.not_lt.mpr h2, Nat.not_lt.mpr h3]

/-- Witness for C5: a storage-price increase aborts the iteration with a
negotiation-stop and leaves the session state unchanged. -/
theorem claim5_price_increase_witness :
    ((2 : Nat) > 1 ∨ (1 : Nat) > 1 ∨ (1 : Nat) > 1) ∧
    ∃ e, startRevision
        (some { netAddress := 4, storagePrice := 2, uploadBandwidthPrice := 1,
                downloadBandwidthPrice := 1 })
        { settings := { netAddress := 3, storagePrice := 1, uploadBandwidthPrice := 1,
                        downloadBandwidthPrice := 1 },
          publicKey := 9 } = (.error e, []) ∧
      (e = "host upload price increased" ∨ e = "host download price increased" ∨
        e = "host storage price increased") ∧
      revisionIterationStart
        (some { netAddress := 4, storagePrice := 2, uploadBandwidthPrice := 1,
                downloadBandwidthPrice := 1 })
        { host := { settings := { netAddress := 3, storagePrice := 1,
                                  uploadBandwidthPrice := 1, downloadBandwidthPrice := 1 },
                    publicKey := 9 },
          committed := none } =
        (.error e,
          { host := { settings := { netAddress := 3, storagePrice := 1,
                                    uploadBandwidthPrice := 1, downloadBandwidthPrice := 1 },
                      publicKey := 9 },
            committed := none }, [.stop]) := by
  have h := (claim5_price_increase
    { netAddress := 4, storagePrice := 2, uploadBandwidthPrice := 1,
      downloadBandwidthPrice := 1 }
    { host := { settings := { netAddress := 3, storagePrice := 1,
                              uploadBandwidthPrice := 1, downloadBandwidthPrice := 1 },
                publicKey := 9 },
      committed := none }).1
  exact ⟨Or.inl (by decide), h (Or.inl (by decide))⟩

/-- C6: in the per-session handshake, the host revision and signature list
are each read under a 2048-byte limit, the transaction signatures are checked
at `endHeight - 1`, and an unlock-conditions-hash mismatch fails
`verifyRecentRevision`, so `initiateRPC` returns an error with the local
contract state untouched for every possible `SyncWithHost`. -/
theorem claim6_handshake_validation (signHash : Nat → Nat → Nat)
    (verifyRevSigs : FileContractRevision → List TransactionSignature → Nat → Bool)
    (unlockHash : Nat → Nat)
    (syncWithHost : FileContractRevision → List TransactionSignature →
      ContractTransaction → Except String ContractTransaction)
    (inp : VRRScript) (contract : ContractTransaction)
    (hch : inp.challengeSize ≤ 32) (hacc : inp.accept = .accepted) :
    (inp.revisionSize > 2048 →
      verifyRecentRevision signHash verifyRevSigs unlockHash inp contract =
        .error "could not read host revision") ∧
    (inp.revisionSize ≤ 2048 → inp.signaturesSize > 2048 →
      verifyRecentRevision signHash verifyRevSigs unlockHash inp contract =
        .error "could not read host signatures") ∧
    (inp.revisionSize ≤ 2048 → inp.signaturesSize ≤ 2048 →
      verifyRevSigs inp.hostRevision inp.hostSignatures (contract.endHeight - 1) = false →
      verifyRecentRevision signHash verifyRevSigs unlockHash inp contract =
        .error "host sent invalid transaction") ∧
    (inp.revisionSize ≤ 2048 → inp.signaturesSize ≤ 2048 →
      verifyRevSigs inp.hostRevision inp.hostSignatures (contract.endHeight - 1) = true →
      unlockHash inp.hostRevision.unlockConditions ≠
        unlockHash contract.currentRevision.unlockConditions →
      verifyRecentRevision signHash verifyRevSigs unlockHash inp contract =
        .error "unlock conditions do not match" ∧
      initiateRPC true true signHash verifyRevSigs unlockHash syncWithHost inp contract =
        (.error
          "could not verify most recent contract revision: unlock conditions do not match",
          contract)) := by
  refine ⟨fun hrev => ?_, fun hrev hsig => ?_, fun hrev hsig hbad => ?_,
    fun hrev hsig hok hne => ⟨?_, ?_⟩⟩
  · simp [verifyRecentRevision, hch, hacc, hrev]
  · simp [verifyRecentRevision, hch, hacc, Nat.not_lt.mpr hrev, hsig]
  · simp [verifyRecentRevision, hch, hacc, Nat.not_lt.mpr hrev, Nat.not_lt.mpr hsig, hbad]
  · simp [verifyRecentRevision, hch, hacc, Nat.not_lt.mpr hrev, Nat.not_lt.mpr hsig, hok, hne]
  · have hvrr : verifyRecentRevision signHash verifyRevSigs unlockHash inp contract =
        .error "unlock conditions do not match" := by
      simp [verifyRecentRevision, hch, hacc, Nat.not_lt.mpr hrev, Nat.not_lt.mpr hsig,
        hok, hne]
    simp [initiateRPC, hvrr]

/-- Witness for C6: a host revision with a different unlock-conditions hash
fails the handshake and leaves the contract unchanged. -/
theorem claim6_handshake_validation_witness :
    (100 : Nat) ≤ 2048 ∧
    initiateRPC true true (fun _ _ => 0) (fun _ _ _ => true) (fun u => u)
        (fun _ _ c => .ok c)
        { challenge := 0, challengeSize := 32, accept := .accepted,
          hostRevision :=
            { parentID := 0, unlockConditions := 1,
              newRevisionNumber := 0, newFileSize := 0, newFileMerkleRoot := 0,
              newWindowStart := 10, newWindowEnd := 20, newValidProofOutputs := [],
              newMissedProofOutputs := [], newUnlockHash := 0 },
          revisionSize := 100, hostSignatures := [], signaturesSize := 100 }
        { id := 0, renterKey := 0,
          currentRevision :=
            { parentID := 0, unlockConditions := 2,
              newRevisionNumber := 0, newFileSize := 0, newFileMerkleRoot := 0,
              newWindowStart := 10, newWindowEnd := 20, newValidProofOutputs := [],
              newMissedProofOutputs := [], newUnlockHash := 0 },
          endHeight := 10 } =
      (.error
        "could not verify most recent contract revision: unlock conditions do not match",
        { id := 0, renterKey := 0,
          currentRevision :=
            { parentID := 0, unlockConditions := 2,
              newRevisionNumber := 0, newFileSize := 0, newFileMerkleRoot := 0,
              newWindowStart := 10, newWindowEnd := 20, newValidProofOutputs := [],
              newMissedProofOutputs := [], newUnlockHash := 0 },
          endHeight := 10 }) := by
  have h := (claim6_handshake_validation (fun _ _ => 0) (fun _ _ _ => true) (fun u => u)
    (fun _ _ c => .ok c)
    { challenge := 0, challengeSize := 32, accept := .accepted,
      hostRevision :=
        { parentID := 0, unlockConditions := 1,
          newRevisionNumber := 0, newFileSize := 0, newFileMerkleRoot := 0,
          newWindowStart := 10, newWindowEnd := 20, newValidProofOutputs := [],
          newMissedProofOutputs := [], newUnlockHash := 0 },
      revisionSize := 100, hostSignatures := [], signaturesSize := 100 }
    { id := 0, renterKey := 0,
      currentRevision :=
        { parentID := 0, unlockConditions := 2,
          newRevisionNumber := 0, newFileSize := 0, newFileMerkleRoot := 0,
          newWindowStart := 10, newWindowEnd := 20, newValidProofOutputs := [],
          newMissedProofOutputs := [], newUnlockHash := 0 },
      endHeight := 10 } (by decide) rfl).2.2.2
  exact ⟨by decide, (h (by decide) (by decide) rfl (by decide)).2⟩

end Us
